import Mathlib

/-!
Shallow embedding of the menu-generation backend
(`backend/ollama_client.py`, `backend/menu_generator.py`).

Python dictionaries produced by JSON parsing are modelled as association
lists of string keys and `Json` values; JSON numbers are modelled as exact
rationals (non-finite float literals such as NaN/Infinity are outside the
model); machine text is `String` over `Char` lists.  Network effects of the
model gateway are modelled by an explicit `GatewayOutcome` oracle: the
gateway either receives a reply text or fails with a timeout, a connection
error, or some other exception, exactly the cases distinguished by
`OllamaClient.generate_response`.
-/

/-- JSON values, as produced by Python's `json.loads`. -/
inductive Json where
  | null
  | bool (b : Bool)
  | num (q : Rat)
  | str (s : String)
  | arr (elems : List Json)
  | obj (fields : List (String × Json))
deriving Repr

/-- The opening-brace character, written via its code point. -/
def lbrace : Char := Char.ofNat 123

/-- The closing-brace character, written via its code point. -/
def rbrace : Char := Char.ofNat 125

/-- Python's `str.lower`, restricted to the ASCII case mapping used by all
titles in this code base. -/
def pyLower (s : String) : String := String.mk (s.toList.map Char.toLower)

/-- Predicate `charsPrefixOf n h` holds when the list `n` is a prefix of `h`. -/
def charsPrefixOf : List Char → List Char → Bool
  | a :: as, b :: bs => a == b && charsPrefixOf as bs
  | needle, _ => needle.isEmpty

/-- Predicate `charsInfixOf n h` holds when `n` occurs contiguously inside `h`. -/
def charsInfixOf (needle : List Char) : List Char → Bool
  | [] => needle.isEmpty
  | hay@(_ :: rest) => charsPrefixOf needle hay || charsInfixOf needle rest

/-- Python's substring test `sub in full` on strings. -/
def pyIn (sub full : String) : Bool := charsInfixOf sub.toList full.toList

/-- Python `dict.get(key, default)` on a dict built from a key/value pair
list (later pairs overwrite earlier ones, as in `dict` construction). -/
def dictGet (pairs : List (String × Json)) (key : String) (dflt : Json) : Json :=
  match pairs.reverse.find? (fun p => p.1 == key) with
  | some p => p.2
  | none => dflt

/-- Python `key in dict`. -/
def dictHasKey (pairs : List (String × Json)) (key : String) : Bool :=
  pairs.any (fun p => p.1 == key)

/-! ### A model of Python's `json.loads` (strict mode) -/

/-- JSON insignificant whitespace. -/
def isJsonWs (c : Char) : Bool := [' ', '\t', '\n', '\r'].contains c

/-- Drop leading JSON whitespace. -/
def skipWs : List Char → List Char
  | [] => []
  | c :: cs => if isJsonWs c then skipWs cs else c :: cs

/-- Numeric value of a decimal digit character. -/
def digitVal (c : Char) : Nat := c.toNat - '0'.toNat

/-- Split off a maximal run of leading decimal digits. -/
def takeDigits : List Char → (List Char × List Char)
  | [] => ([], [])
  | c :: cs =>
    if c.isDigit then
      let r := takeDigits cs
      (c :: r.1, r.2)
    else ([], c :: cs)

/-- Value of a digit run, most significant first. -/
def digitsVal (ds : List Char) : Nat := ds.foldl (fun acc c => acc * 10 + digitVal c) 0

/-- Numeric value of a hexadecimal digit character (written over code
points), if it is one. -/
def hexVal (ch : Char) : Option Nat :=
  let n := ch.toNat
  if 48 ≤ n && n ≤ 57 then some (n - 48)
  else if 97 ≤ n && n ≤ 102 then some (n - 87)
  else if 65 ≤ n && n ≤ 70 then some (n - 55)
  else none

/-- Table of the single-character JSON string escapes. -/
def escTable : List (Char × Char) :=
  [('"', '"'), ('\\', '\\'), ('/', '/'),
   ('b', Char.ofNat 8), ('f', Char.ofNat 12),
   ('n', '\n'), ('r', '\r'), ('t', '\t')]

/-- Translate a single-character JSON string escape via the table. -/
def escChar (e : Char) : Option Char :=
  (escTable.find? fun p => p.1 == e).map Prod.snd

/-- Parse the body of a JSON string (the opening quote already consumed),
returning the decoded characters and the rest of the input.  Raw control
characters are rejected, as in `json.loads`'s strict mode. -/
def parseStringChars : List Char → Option (List Char × List Char)
  | [] => none
  | ch :: more =>
    if ch == '"' then some ([], more)
    else if ch == '\\' then
      match more with
      | 'u' :: h1 :: h2 :: h3 :: h4 :: more2 => do
        let v1 ← hexVal h1
        let v2 ← hexVal h2
        let v3 ← hexVal h3
        let v4 ← hexVal h4
        let (tail, rem) ← parseStringChars more2
        some (Char.ofNat (v4 + 16 * (v3 + 16 * (v2 + 16 * v1))) :: tail, rem)
      | e :: more2 => do
        let ec ← escChar e
        let (tail, rem) ← parseStringChars more2
        some (ec :: tail, rem)
      | [] => none
    else if ch.toNat < 32 then none
    else do
      let (tail, rem) ← parseStringChars more
      some (ch :: tail, rem)

/-- Combine sign, integer digits, fraction digits and exponent into the
exact rational value of a JSON number literal. -/
def jsonNumVal (neg : Bool) (ip : Nat) (frac : List Char) (exp : Int) : Rat :=
  let mant : Int := (ip * 10 ^ frac.length + digitsVal frac : Nat)
  let mant : Int := if neg then -mant else mant
  let scale : Int := exp - frac.length
  if 0 ≤ scale then ((mant * 10 ^ scale.toNat : Int) : Rat)
  else mkRat mant (10 ^ (-scale).toNat)

/-- Parse a JSON number literal (grammar `-?(0|[1-9][0-9]*)(\.[0-9]+)?([eE][+-]?[0-9]+)?`),
returning its value and the rest of the input. -/
def parseNumber (cs : List Char) : Option (Json × List Char) :=
  let (neg, cs) := match cs with
    | '-' :: rest => (true, rest)
    | _ => (false, cs)
  match cs with
  | [] => none
  | c :: _ =>
    if !c.isDigit then none
    else
      let (ipDigits, rest) :=
        if c == '0' then ([c], cs.tail)
        else takeDigits cs
      let ip := digitsVal ipDigits
      let (frac, rest) := match rest with
        | '.' :: r =>
          let (ds, r2) := takeDigits r
          (some ds, r2)
        | _ => (none, rest)
      match frac with
      | some [] => none
      | _ =>
        let fracDs := frac.getD []
        let (expPart, rest) := match rest with
          | 'e' :: r => (some r, r)
          | 'E' :: r => (some r, r)
          | _ => (none, rest)
        match expPart with
        | none => some (Json.num (jsonNumVal neg ip fracDs 0), rest)
        | some r =>
          let (eNeg, r) := match r with
            | '+' :: r2 => (false, r2)
            | '-' :: r2 => (true, r2)
            | _ => (false, r)
          let (eds, r2) := takeDigits r
          if eds.isEmpty then none
          else
            let e : Int := if eNeg then -(digitsVal eds : Int) else (digitsVal eds : Int)
            some (Json.num (jsonNumVal neg ip fracDs e), r2)

mutual

/-- Parse one JSON value starting at the head of the input (leading
whitespace already skipped); fuel bounds the nesting depth. -/
def parseValue : Nat → List Char → Option (Json × List Char)
  | 0, _ => none
  | Nat.succ fuel, cs =>
    match cs with
    | [] => none
    | '"' :: rest => do
      let (s, rem) ← parseStringChars rest
      some (Json.str (String.mk s), rem)
    | 't' :: 'r' :: 'u' :: 'e' :: rest => some (Json.bool true, rest)
    | 'f' :: 'a' :: 'l' :: 's' :: 'e' :: rest => some (Json.bool false, rest)
    | 'n' :: 'u' :: 'l' :: 'l' :: rest => some (Json.null, rest)
    | c :: rest =>
      if c == lbrace then
        match skipWs rest with
        | c2 :: rest2 =>
          if c2 == rbrace then some (Json.obj [], rest2)
          else do
            let (ps, rem) ← parsePairs fuel (c2 :: rest2)
            some (Json.obj ps, rem)
        | [] => none
      else if c == '[' then
        match skipWs rest with
        | ']' :: rest2 => some (Json.arr [], rest2)
        | cs2 => do
          let (es, rem) ← parseElems fuel cs2
          some (Json.arr es, rem)
      else parseNumber (c :: rest)

/-- Parse the members of a JSON object after its opening brace, the input
positioned at the first key; consumes the closing brace. -/
def parsePairs : Nat → List Char → Option (List (String × Json) × List Char)
  | 0, _ => none
  | Nat.succ fuel, cs =>
    match cs with
    | '"' :: rest => do
      let (key, rem) ← parseStringChars rest
      match skipWs rem with
      | ':' :: rem2 => do
        let (v, rem3) ← parseValue fuel (skipWs rem2)
        match skipWs rem3 with
        | ',' :: rem4 => do
          let (ps, rem5) ← parsePairs fuel (skipWs rem4)
          some ((String.mk key, v) :: ps, rem5)
        | c :: rem4 =>
          if c == rbrace then some ([(String.mk key, v)], rem4) else none
        | [] => none
      | _ => none
    | _ => none

/-- Parse the elements of a JSON array after its opening bracket, the input
positioned at the first element; consumes the closing bracket. -/
def parseElems : Nat → List Char → Option (List Json × List Char)
  | 0, _ => none
  | Nat.succ fuel, cs => do
    let (v, rem) ← parseValue fuel (skipWs cs)
    match skipWs rem with
    | ',' :: rem2 => do
      let (es, rem3) ← parseElems fuel rem2
      some (v :: es, rem3)
    | ']' :: rem2 => some ([v], rem2)
    | _ => none

end

/-- Python's `json.loads`: parse a complete JSON document, rejecting any
trailing non-whitespace data (`none` models `json.JSONDecodeError`). -/
def json_loads (s : String) : Option Json :=
  match parseValue (s.length + 1) (skipWs s.toList) with
  | some (v, rest) => if (skipWs rest).isEmpty then some v else none
  | none => none

/-! ### Response Normalizer (`OllamaClient.generate_json_response`) -/

/-- Index of the first occurrence of `c`, if any. -/
def firstIdxOf (c : Char) : List Char → Option Nat
  | [] => none
  | x :: xs =>
    if x == c then some 0
    else match firstIdxOf c xs with
      | some i => some (i + 1)
      | none => none

/-- Index of the last occurrence of `c`, if any. -/
def lastIdxOf (c : Char) (cs : List Char) : Option Nat :=
  match firstIdxOf c cs.reverse with
  | some i => some (cs.length - 1 - i)
  | none => none

/-- The substring found by `re.search(r'\x7b.*\x7d', text, re.DOTALL)`:
with `.` matching newlines and `.*` greedy, the match runs from the first
opening brace that has a closing brace after it to the last closing brace
of the whole text. -/
def firstBraceMatch (text : String) : Option String :=
  let cs := text.toList
  match firstIdxOf lbrace cs, lastIdxOf rbrace cs with
  | some i, some j => if i < j then some (String.mk ((cs.drop i).take (j - i + 1))) else none
  | _, _ => none

/-- The structured parse-failure value returned when both JSON parsing
tiers fail, carrying the original raw text. -/
def parse_error_obj (raw : String) : Json :=
  Json.obj [("error", Json.str "Failed to parse JSON response"),
            ("raw_response", Json.str raw)]

/-- The parsing pipeline of `OllamaClient.generate_json_response`, applied
to the raw reply text: direct `json.loads`, then `json.loads` of the greedy
brace-delimited substring, then the structured error value. -/
def generate_json_response_pure (response_text : String) : Json :=
  match json_loads response_text with
  | some v => v
  | none =>
    match firstBraceMatch response_text with
    | some sub =>
      match json_loads sub with
      | some v => v
      | none => parse_error_obj response_text
    | none => parse_error_obj response_text

/-! ### Model Gateway (`OllamaClient.generate_response`) -/

/-- Outcome of the HTTP round trip to the LLM chat endpoint, as
distinguished by the handlers in `generate_response`: a reply text, a
`requests` timeout, a `requests` connection error, or any other
exception with message `msg`. -/
inductive GatewayOutcome where
  | success (raw : String)
  | timeout
  | connError
  | otherExc (msg : String)
deriving Repr

/-- Whether the outcome is one of the exception cases. -/
def GatewayOutcome.isFailure : GatewayOutcome → Bool
  | .success _ => false
  | _ => true

/-- The string `generate_response` returns for each outcome: the stripped
assistant reply on success, a sentinel error string otherwise (the function
catches every exception and never raises). -/
def generate_response_text : GatewayOutcome → String
  | .success raw => raw.trim
  | .timeout => "Error: Request timed out. Try using a smaller model."
  | .connError => "Error: Cannot connect to Ollama. Make sure it's running."
  | .otherExc msg => "Error: " ++ msg

/-- A role-tagged chat message. -/
structure Message where
  role : String
  content : String
deriving Repr, DecidableEq

/-- One call to `generate_response` as seen by a single session's history:
the optional system prompt, the user prompt, and the network outcome. -/
structure GenCall where
  system_prompt : Option String
  prompt : String
  outcome : GatewayOutcome
deriving Repr

/-- Python truthiness of the `system_prompt` argument (`None` and the
empty string are falsy). -/
def sysTruthy : Option String → Bool
  | none => false
  | some s => !s.isEmpty

/-- The condition `not messages or messages[0]["role"] != "system"`. -/
def needsSystemInsert : List Message → Bool
  | [] => true
  | m :: _ => m.role != "system"

/-- The system-prompt insertion step of `generate_response`: insert at
position 0 when a truthy system prompt is supplied and the history is
empty or does not start with a system message. -/
def insertSystem (h : List Message) (sp : Option String) : List Message :=
  if sysTruthy sp && needsSystemInsert h then
    { role := "system", content := sp.getD "" } :: h
  else h

/-- Effect of one `generate_response` call on the session history, paired
with the returned string.  The history mutations (system insert, user
append) happen before the HTTP call, so they persist on failure; the
assistant reply is appended only on success. -/
def generate_response_step (h : List Message) (c : GenCall) : List Message × String :=
  let h1 := insertSystem h c.system_prompt
  let h2 := h1 ++ [{ role := "user", content := c.prompt }]
  match c.outcome with
  | .success raw => (h2 ++ [{ role := "assistant", content := raw.trim }], raw.trim)
  | o => (h2, generate_response_text o)

/-- Session history after a sequence of `generate_response` calls, starting
from the empty history created by `get_or_create_conversation`. -/
def run_calls (calls : List GenCall) : List Message :=
  calls.foldl (fun h c => (generate_response_step h c).1) []

/-- The model name configured in `OllamaClient.__init__`. -/
def current_model : String := "danielsheep/Qwen3-Coder-30B-A3B-Instruct-1M-Unsloth"

/-! ### Menu Validator (`MenuGenerator._validate_menu_items`) -/

/-- A candidate passes validation when it is map-shaped and has a `title`
key (`isinstance(item, dict) and "title" in item`). -/
def isGoodCandidate : Json → Bool
  | .obj d => dictHasKey d "title"
  | _ => false

/-- The canonical item a good candidate is turned into: the candidate's own
values for the five fields when present, else the literal defaults (`alt`
falls back to the candidate's title). -/
def buildValidated : Json → Json
  | .obj d =>
    Json.obj [("title", dictGet d "title" (Json.str "Unknown Action")),
              ("prompt", dictGet d "prompt" (Json.str "Execute this action")),
              ("tools", dictGet d "tools" (Json.arr [])),
              ("alt", dictGet d "alt" (dictGet d "title" (Json.str "Action"))),
              ("icon", dictGet d "icon" (Json.str "📋"))]
  | _ => Json.null

/-- Function `_validate_menu_items`: loop over the candidates, keeping the
canonicalized form of each good candidate and emitting nothing for the
rest. -/
def validate_menu_items : List Json → List Json
  | [] => []
  | item :: rest =>
    if isGoodCandidate item then buildValidated item :: validate_menu_items rest
    else validate_menu_items rest

/-! ### Dedup Filter (`MenuGenerator._filter_completed_actions`) -/

/-- Expression `item.get("title", "").lower()`: `none` models the `AttributeError`
Python raises when the item is not a dict or its title is not a string. -/
def titleLowerOf : Json → Option String
  | .obj d =>
    match dictGet d "title" (Json.str "") with
    | .str s => some (pyLower s)
    | _ => none
  | _ => none

/-- The fixed stem-pair table `duplicate_keywords`. -/
def duplicate_keywords : List (String × String) :=
  [("research", "research"), ("analyze", "analyz"),
   ("identify", "identif"), ("develop", "develop"),
   ("create", "creat"), ("design", "design")]

/-- One candidate-title/completed-entry comparison: exact equality,
substring containment in either direction, or a stem-pair hit. -/
def isDupWith (item_title completed_lower : String) : Bool :=
  item_title == completed_lower ||
  pyIn item_title completed_lower ||
  pyIn completed_lower item_title ||
  duplicate_keywords.any (fun p => pyIn p.1 item_title && pyIn p.2 completed_lower)

/-- The filtering loop of `_filter_completed_actions`: keep each item whose
lower-cased title matches no completed entry; `none` models an
`AttributeError` escaping the loop. -/
def filterLoop : List Json → List String → Option (List Json)
  | [], _ => some []
  | item :: rest, completed => do
    let t ← titleLowerOf item
    let tail ← filterLoop rest completed
    if completed.any (fun c => isDupWith t (pyLower c)) then some tail
    else some (item :: tail)

/-- The fixed three-item progression catalogue of
`_get_progression_actions`. -/
def progression_base : List Json :=
  [Json.obj [("title", Json.str "Next Phase"),
             ("prompt", Json.str "Move to the next phase of this workflow based on completed work"),
             ("tools", Json.arr [Json.str "planning"]),
             ("alt", Json.str "Advance to the next stage"),
             ("icon", Json.str "➡️")],
   Json.obj [("title", Json.str "Deep Dive"),
             ("prompt", Json.str "Explore the most promising aspect from previous work in greater detail"),
             ("tools", Json.arr [Json.str "analysis"]),
             ("alt", Json.str "Go deeper on key findings"),
             ("icon", Json.str "🔍")],
   Json.obj [("title", Json.str "Create Deliverable"),
             ("prompt", Json.str "Generate a concrete output based on the work completed so far"),
             ("tools", Json.arr [Json.str "creation"]),
             ("alt", Json.str "Produce tangible results"),
             ("icon", Json.str "📄")]]

/-- Function `_get_progression_actions`: the catalogue minus any action whose
lower-cased title occurs as a substring of a lower-cased completed entry
(the catalogue's titles are string literals, so the `.getD` default is
never taken). -/
def get_progression_actions (completed_actions : List String) : List Json :=
  progression_base.filter fun a =>
    !(completed_actions.any fun c => pyIn ((titleLowerOf a).getD "") (pyLower c))

/-- Function `_filter_completed_actions`: return the input unchanged when the
completed list is empty (note: no truncation on that path); otherwise run
the dedup loop, pad with progression actions when fewer than 2 survive,
and truncate to 5. -/
def filter_completed_actions (menu_items : List Json) (completed_actions : List String) :
    Option (List Json) :=
  if completed_actions.isEmpty then some menu_items
  else do
    let filtered ← filterLoop menu_items completed_actions
    let filtered :=
      if filtered.length < 2 then filtered ++ get_progression_actions completed_actions
      else filtered
    some (filtered.take 5)

/-! ### Workflow Orchestrator (`MenuGenerator.generate_menu`,
`_generate_fallback_menu`, `execute_action`, `_generate_next_actions`) -/

/-- The fixed five-item catalogue `base_actions` of
`_generate_fallback_menu`; `role` and `context` are interpolated into the
prompt fields only. -/
def base_actions (role context : String) : List Json :=
  [Json.obj [("title", Json.str "Analyze Current State"),
             ("prompt", Json.str s!"Analyze the current situation for a {role}: {context}"),
             ("tools", Json.arr [Json.str "analysis"]),
             ("alt", Json.str "Evaluate the present situation"),
             ("icon", Json.str "🔍")],
   Json.obj [("title", Json.str "Strategic Planning"),
             ("prompt", Json.str s!"Create a strategic plan for a {role} dealing with: {context}"),
             ("tools", Json.arr [Json.str "planning"]),
             ("alt", Json.str "Develop strategic approach"),
             ("icon", Json.str "📋")],
   Json.obj [("title", Json.str "Research Options"),
             ("prompt", Json.str s!"Research available options for a {role} in this context: {context}"),
             ("tools", Json.arr [Json.str "research"]),
             ("alt", Json.str "Investigate possibilities"),
             ("icon", Json.str "📚")],
   Json.obj [("title", Json.str "Create Deliverable"),
             ("prompt", Json.str s!"Generate a concrete deliverable for a {role} on: {context}"),
             ("tools", Json.arr [Json.str "creation"]),
             ("alt", Json.str "Produce tangible output"),
             ("icon", Json.str "📄")],
   Json.obj [("title", Json.str "Next Steps"),
             ("prompt", Json.str s!"Determine next steps for a {role} regarding: {context}"),
             ("tools", Json.arr [Json.str "planning"]),
             ("alt", Json.str "Identify immediate actions"),
             ("icon", Json.str "➡️")]]

/-- Function `_generate_fallback_menu`: the base catalogue run through the dedup
filter against the same completed-actions list. -/
def generate_fallback_menu (role context : String) (completed_actions : List String) :
    Option (List Json) :=
  filter_completed_actions (base_actions role context) completed_actions

/-- Python `"error" in response` when the response is a list: membership of
the string among the elements (`==` between `str` and a non-`str` JSON
value is `False`). -/
def listContainsErrorStr (items : List Json) : Bool :=
  items.any fun j =>
    match j with
    | .str s => s == "error"
    | _ => false

/-- Function `generate_menu`, as a function of the gateway's raw reply text.  A list
response without the element `"error"` goes through validate-then-filter
(an `AttributeError` raised there is caught by the surrounding handler,
which falls back); every other response shape reaches the fallback: an
object is either caught by the `"error" in response` check or fails the
`isinstance(response, list)` check, a string's membership test is a
substring check, and any other type raises `TypeError` into the handler. -/
def generate_menu (gateway_text role context : String) (completed_actions : List String) :
    Option (List Json) :=
  match generate_json_response_pure gateway_text with
  | .arr items =>
    if listContainsErrorStr items then generate_fallback_menu role context completed_actions
    else
      match filter_completed_actions (validate_menu_items items) completed_actions with
      | some out => some out
      | none => generate_fallback_menu role context completed_actions
  | _ => generate_fallback_menu role context completed_actions

/-- The fixed default next-action titles of `_generate_next_actions`. -/
def default_next_actions : List Json :=
  [Json.str "Review Results", Json.str "Continue Planning", Json.str "Next Phase"]

/-- Function `_generate_next_actions`, as a function of the parsed secondary
response: a list is truncated to its first three elements, anything else
yields the fixed defaults. -/
def generate_next_actions (response : Json) : List Json :=
  match response with
  | .arr l => l.take 3
  | _ => default_next_actions

/-- The result dict of `execute_action`. -/
structure ExecutionResult where
  content : String
  next_actions : List Json
  executed_at : String
  model_used : String
deriving Repr

/-- Function `execute_action`, as a function of the primary and secondary gateway
outcomes.  `generate_response` catches every exception and returns a
string, so the success branch is always taken and the function's own
`except` branch (content `"Error executing action: ..."`, empty
next-actions, model `"error"`) is unreachable. -/
def execute_action (primary secondary : GatewayOutcome) : ExecutionResult :=
  let result := generate_response_text primary
  let next := generate_next_actions
    (generate_json_response_pure (generate_response_text secondary))
  { content := result
    next_actions := next
    executed_at := "now"
    model_used := current_model }

/-- Title of a canonicalized menu item, for stating claims: the item's
`title` value when it is a string. -/
def titleOf (j : Json) : Option String :=
  match j with
  | .obj d =>
    match dictGet d "title" Json.null with
    | .str s => some s
    | _ => none
  | _ => none

/-- Whether a JSON value is an array. -/
def Json.isArr : Json → Bool
  | .arr _ => true
  | _ => false

/-- A menu item whose `title` field is a non-empty string. -/
def hasNonemptyTitle (j : Json) : Bool :=
  match titleOf j with
  | some s => !s.isEmpty
  | none => false

/-! ### Structural lemmas about the validator and the dedup filter -/

/-- The validation loop keeps exactly the good candidates, each in
canonicalized form, in input order. -/
theorem validate_menu_items_eq (items : List Json) :
    validate_menu_items items = (items.filter isGoodCandidate).map buildValidated := by
  induction items with
  | nil => rfl
  | cons a t ih =>
    cases h : isGoodCandidate a with
    | true => simp [validate_menu_items, List.filter_cons, h, ih]
    | false => simp [validate_menu_items, List.filter_cons, h, ih]

/-- When the dedup loop finishes without an exception, its output is an
order-preserving sublist of its input. -/
theorem filterLoop_sublist (items : List Json) (completed : List String) (out : List Json)
    (h : filterLoop items completed = some out) : List.Sublist out items := by
  induction items generalizing out with
  | nil =>
    simp [filterLoop] at h
    simp [← h]
  | cons a t ih =>
    cases ht : titleLowerOf a with
    | none => simp [filterLoop, ht] at h
    | some tl =>
      cases hr : filterLoop t completed with
      | none => simp [filterLoop, ht, hr] at h
      | some tail =>
        simp [filterLoop, ht, hr] at h
        split at h
        · injection h with h2
          subst h2
          exact (ih tail hr).cons a
        · injection h with h2
          subst h2
          exact (ih tail hr).cons₂ a

/-- The synthesized progression actions are a sublist of the fixed
catalogue. -/
theorem get_progression_sublist (completed : List String) :
    List.Sublist (get_progression_actions completed) progression_base :=
  List.filter_sublist _

/-- Dedup output is always drawn, in order, from the candidates followed by
the progression catalogue. -/
theorem filter_completed_sublist (items : List Json) (completed : List String) (out : List Json)
    (h : filter_completed_actions items completed = some out) :
    List.Sublist out (items ++ progression_base) := by
  unfold filter_completed_actions at h
  by_cases hc : completed.isEmpty = true
  · simp [hc] at h
    subst h
    exact List.sublist_append_left _ _
  · simp [hc] at h
    cases hf : filterLoop items completed with
    | none => simp [hf] at h
    | some filtered =>
      simp [hf] at h
      have h1 : List.Sublist filtered items := filterLoop_sublist items completed filtered hf
      by_cases hl : filtered.length < 2
      · rw [if_pos hl] at h
        subst h
        exact (List.take_sublist _ _).trans (h1.append (get_progression_sublist completed))
      · rw [if_neg hl] at h
        subst h
        exact (List.take_sublist _ _).trans (h1.trans (List.sublist_append_left _ _))

/-- With a non-empty completed list the dedup output is truncated to five
items. -/
theorem filter_completed_length (items : List Json) (completed : List String) (out : List Json)
    (hc : completed ≠ []) (h : filter_completed_actions items completed = some out) :
    out.length ≤ 5 := by
  have hce : completed.isEmpty = false := by
    cases completed with
    | nil => exact absurd rfl hc
    | cons a t => rfl
  unfold filter_completed_actions at h
  rw [hce] at h
  simp at h
  cases hf : filterLoop items completed with
  | none => simp [hf] at h
  | some filtered =>
    simp [hf] at h
    rw [← h]
    exact List.length_take_le 5 _

/-- With at most five candidates the dedup output has at most five items on
every path, including the untruncated empty-completed path. -/
theorem filter_completed_length_of_le (items : List Json) (completed : List String)
    (out : List Json) (hi : items.length ≤ 5)
    (h : filter_completed_actions items completed = some out) : out.length ≤ 5 := by
  by_cases hc : completed = []
  · subst hc
    simp [filter_completed_actions] at h
    rw [← h]
    exact hi
  · exact filter_completed_length items completed out hc h

/-- The dedup loop finishes without an exception whenever every item's
title is a string. -/
theorem filterLoop_total (items : List Json) (completed : List String)
    (h : (items.all fun j => (titleLowerOf j).isSome) = true) :
    ∃ out, filterLoop items completed = some out := by
  induction items with
  | nil => exact ⟨[], rfl⟩
  | cons a t ih =>
    simp [List.all_cons] at h
    obtain ⟨ha, ht⟩ := h
    obtain ⟨tl, htl⟩ := Option.isSome_iff_exists.mp ha
    obtain ⟨tail, htail⟩ := ih (by simpa using ht)
    by_cases hd : completed.any (fun c => isDupWith tl (pyLower c)) = true
    · refine ⟨tail, ?_⟩
      simp [filterLoop, htl, htail]
      simpa using hd
    · refine ⟨a :: tail, ?_⟩
      simp [filterLoop, htl, htail]
      simpa using hd

/-- Every base-catalogue item has a string title (the `role`/`context`
interpolation touches only the prompt fields). -/
theorem base_titles_some (role context : String) :
    ((base_actions role context).all fun j => (titleLowerOf j).isSome) = true := rfl

/-- Every base-catalogue and progression-catalogue item has a non-empty
string title. -/
theorem base_prog_titles_nonempty (role context : String) :
    ((base_actions role context ++ progression_base).all hasNonemptyTitle) = true := rfl

/-- The fallback menu never raises: the base catalogue's titles are all
strings, so the dedup filter completes on it for every completed list. -/
theorem fallback_is_some (role context : String) (completed : List String) :
    ∃ out, generate_fallback_menu role context completed = some out := by
  unfold generate_fallback_menu filter_completed_actions
  by_cases hc : completed.isEmpty = true
  · exact ⟨base_actions role context, by simp [hc]⟩
  · obtain ⟨f, hf⟩ := filterLoop_total (base_actions role context) completed
      (base_titles_some role context)
    refine ⟨(if f.length < 2 then f ++ get_progression_actions completed else f).take 5, ?_⟩
    simp [hc, hf]

/-- Claim C1 (amended): if the model gateway always returns a
transport-failure sentinel (timeout or connection error), `generate_menu`
takes the fallback path and returns at most 5 ActionItems, each with a
non-empty title — but not always at least 2: a completed-actions list that
textually matches every base-catalogue title and contains every
progression title can empty the fallback menu entirely (see the
counterexample). -/
theorem c1_fallback_availability (role context : String) (completed_actions : List String) :
    ∃ out,
      generate_fallback_menu role context completed_actions = some out ∧
      generate_menu (generate_response_text .timeout) role context completed_actions = some out ∧
      generate_menu (generate_response_text .connError) role context completed_actions = some out ∧
      out.length ≤ 5 ∧
      (out.all hasNonemptyTitle) = true := by
  obtain ⟨out, hout⟩ := fallback_is_some role context completed_actions
  have ht : generate_menu (generate_response_text .timeout) role context completed_actions
      = generate_fallback_menu role context completed_actions := rfl
  have hc : generate_menu (generate_response_text .connError) role context completed_actions
      = generate_fallback_menu role context completed_actions := rfl
  refine ⟨out, hout, ht.trans hout, hc.trans hout, ?_, ?_⟩
  · exact filter_completed_length_of_le _ _ _ (le_refl 5) hout
  · have hsub := filter_completed_sublist (base_actions role context) completed_actions out hout
    have hall := base_prog_titles_nonempty role context
    simp only [List.all_eq_true] at hall ⊢
    intro j hj
    exact hall j (hsub.subset hj)

/-- Claim C1 counterexample: with the connection-failure sentinel and a
single completed entry that contains every base and progression title as a
substring, `generate_menu` returns an empty menu, violating the claimed
lower bound of 2 items. -/
theorem c1_counterexample :
    generate_menu (generate_response_text .connError) "General User" "ctx"
        ["analyze current state strategic planning research options create deliverable next steps next phase deep dive"]
      = some [] ∧ ¬ 2 ≤ ([] : List Json).length :=
  ⟨rfl, by decide⟩

/-- Claim C3 (amended): the Menu Validator keeps exactly the map-shaped,
title-bearing candidates, canonicalizing each one with the candidate's own
field values (the title copied verbatim, possibly empty — non-emptiness is
not enforced) and skipping every other candidate. -/
theorem c3_validate_skips_and_copies (candidates : List Json) :
    validate_menu_items candidates = (candidates.filter isGoodCandidate).map buildValidated ∧
    (validate_menu_items candidates).length = (candidates.filter isGoodCandidate).length :=
  ⟨validate_menu_items_eq candidates,
   by rw [validate_menu_items_eq candidates, List.length_map]⟩

/-- Claim C3 counterexample: a map-shaped candidate whose `title` value is
the empty string passes validation and is emitted with an empty title. -/
theorem c3_counterexample :
    validate_menu_items [Json.obj [("title", Json.str "")]] =
      [Json.obj [("title", Json.str ""), ("prompt", Json.str "Execute this action"),
                 ("tools", Json.arr []), ("alt", Json.str ""), ("icon", Json.str "📋")]] ∧
    ((validate_menu_items [Json.obj [("title", Json.str "")]]).all hasNonemptyTitle) = false :=
  ⟨rfl, rfl⟩

/-- Claim C4 (amended): dedup output is an order-preserving sublist of the
candidates followed by the progression catalogue (survivors first, then
appended progression actions), and is capped at 5 items whenever the
completed-actions list is non-empty; with an empty completed list the
filter returns the candidates unchanged and the cap is not applied (see
the counterexample). -/
theorem c4_filter_subset_order (menu_items : List Json) (completed_actions : List String)
    (out : List Json) (h : filter_completed_actions menu_items completed_actions = some out) :
    List.Sublist out (menu_items ++ progression_base) ∧
    (completed_actions ≠ [] → out.length ≤ 5) :=
  ⟨filter_completed_sublist _ _ _ h, fun hc => filter_completed_length _ _ _ hc h⟩

/-- Claim C4 witness: a surviving candidate followed by the three progression
actions, for one concrete run of the filter. -/
theorem c4_filter_subset_order_witness :
    List.Sublist (buildValidated (Json.obj [("title", Json.str "Alpha")]) :: progression_base)
      (validate_menu_items [Json.obj [("title", Json.str "Alpha")]] ++ progression_base) ∧
    ((["zzz"] : List String) ≠ [] →
      (buildValidated (Json.obj [("title", Json.str "Alpha")]) :: progression_base).length ≤ 5) :=
  c4_filter_subset_order (validate_menu_items [Json.obj [("title", Json.str "Alpha")]]) ["zzz"]
    (buildValidated (Json.obj [("title", Json.str "Alpha")]) :: progression_base) rfl

/-- Claim C4 counterexample: with an empty completed-actions list the filter
returns all six candidates, so the claimed unconditional bound of 5 fails. -/
theorem c4_counterexample :
    (filter_completed_actions (validate_menu_items
        [Json.obj [("title", Json.str "A1")], Json.obj [("title", Json.str "A2")],
         Json.obj [("title", Json.str "A3")], Json.obj [("title", Json.str "A4")],
         Json.obj [("title", Json.str "A5")], Json.obj [("title", Json.str "A6")]]) []).map
        List.length = some 6 ∧
    ¬ (6 : Nat) ≤ 5 :=
  ⟨rfl, by decide⟩

/-- Claim C6: with completed = ["Analyzed market trends"], a candidate titled
"Analyze Competitors" is removed by the stem-pair rule
("analyze"/"analyz"); only the progression actions remain, none of which
carries the removed title. -/
theorem c6_stem_pair_dedup :
    isDupWith (pyLower "Analyze Competitors") (pyLower "Analyzed market trends") = true ∧
    filter_completed_actions
        (validate_menu_items [Json.obj [("title", Json.str "Analyze Competitors")]])
        ["Analyzed market trends"] = some progression_base ∧
    (progression_base.all fun j => ((titleOf j).getD "") != "Analyze Competitors") = true :=
  ⟨rfl, rfl, rfl⟩

/-! ### Lemmas about the two-tier JSON extraction -/

/-- No JSON value starts with the letter `E`, so a gateway sentinel
(`"Error: ..."`) never parses, whatever follows the prefix. -/
theorem parseValue_E (fuel : Nat) (l : List Char) : parseValue fuel ('E' :: l) = none := by
  cases fuel <;> rfl

/-- A successful parse of input starting with an opening brace is an
object. -/
theorem parseValue_lbrace_obj (fuel : Nat) (rest : List Char) (v : Json) (rem : List Char)
    (h : parseValue fuel (lbrace :: rest) = some (v, rem)) : ∃ fs, v = Json.obj fs := by
  cases fuel with
  | zero => simp [parseValue] at h
  | succ fuel =>
    have hred : parseValue (fuel + 1) (lbrace :: rest)
        = (match skipWs rest with
           | c2 :: rest2 =>
             if c2 == rbrace then some (Json.obj [], rest2)
             else (parsePairs fuel (c2 :: rest2)).bind fun p => some (Json.obj p.1, p.2)
           | [] => none) := rfl
    rw [hred] at h
    cases hs : skipWs rest with
    | nil =>
      rw [hs] at h
      simp at h
    | cons c2 rest2 =>
      rw [hs] at h
      simp only [] at h
      by_cases hbr : (c2 == rbrace) = true
      · rw [if_pos hbr] at h
        injection h with h2
        exact ⟨[], (congrArg Prod.fst h2).symm⟩
      · rw [if_neg hbr] at h
        cases hp : parsePairs fuel (c2 :: rest2) with
        | none => rw [hp] at h; simp at h
        | some p =>
          rw [hp] at h
          simp at h
          exact ⟨p.1, h.1.symm⟩

/-- Dropping to the first occurrence of a character lands on it. -/
theorem firstIdxOf_drop (c : Char) (cs : List Char) (i : Nat) (h : firstIdxOf c cs = some i) :
    ∃ tl, cs.drop i = c :: tl := by
  induction cs generalizing i with
  | nil => simp [firstIdxOf] at h
  | cons x xs ih =>
    by_cases hx : (x == c) = true
    · simp [firstIdxOf, hx] at h
      exact ⟨xs, by simp [← h, eq_of_beq hx]⟩
    · cases hf : firstIdxOf c xs with
      | none => simp [firstIdxOf, hx, hf] at h
      | some j =>
        simp [firstIdxOf, hx, hf] at h
        obtain ⟨tl, htl⟩ := ih j hf
        exact ⟨tl, by simp [← h, htl]⟩

/-- The regex-extracted substring always starts with an opening brace. -/
theorem firstBraceMatch_head (t sub : String) (h : firstBraceMatch t = some sub) :
    ∃ tl, sub.toList = lbrace :: tl := by
  rw [show firstBraceMatch t
      = (match firstIdxOf lbrace t.toList, lastIdxOf rbrace t.toList with
         | some i, some j =>
           if i < j then some (String.mk ((t.toList.drop i).take (j - i + 1))) else none
         | _, _ => none) from rfl] at h
  cases hf : firstIdxOf lbrace t.toList with
  | none => rw [hf] at h; simp at h
  | some i =>
    cases hl : lastIdxOf rbrace t.toList with
    | none => rw [hf, hl] at h; simp at h
    | some j =>
      rw [hf, hl] at h
      simp only [] at h
      by_cases hij : i < j
      · rw [if_pos hij] at h
        injection h with h2
        obtain ⟨tl, htl⟩ := firstIdxOf_drop lbrace t.toList i hf
        refine ⟨tl.take (j - i), ?_⟩
        rw [← h2]
        show (t.toList.drop i).take (j - i + 1) = lbrace :: tl.take (j - i)
        rw [htl]
        rfl
      · rw [if_neg hij] at h; simp at h

/-- A complete `json.loads` parse of a text starting with an opening brace
yields an object. -/
theorem json_loads_lbrace (s : String) (tl : List Char) (hs : s.toList = lbrace :: tl)
    (v : Json) (h : json_loads s = some v) : ∃ fs, v = Json.obj fs := by
  unfold json_loads at h
  rw [hs] at h
  rw [show skipWs (lbrace :: tl) = lbrace :: tl from rfl] at h
  cases hp : parseValue (s.length + 1) (lbrace :: tl) with
  | none => rw [hp] at h; simp at h
  | some p =>
    obtain ⟨pv, prest⟩ := p
    rw [hp] at h
    simp at h
    obtain ⟨he, hv⟩ := h
    obtain ⟨fs, hfs⟩ := parseValue_lbrace_obj _ _ pv prest hp
    exact ⟨fs, hv ▸ hfs⟩

/-- When the direct parse fails, the two-tier extraction can only produce
an object: either the brace-delimited substring parses (to an object), or
the structured error value (itself an object) is returned — never an
array. -/
theorem jrp_not_arr (t : String) (h : json_loads t = none) (l : List Json) :
    generate_json_response_pure t ≠ Json.arr l := by
  unfold generate_json_response_pure
  rw [h]
  cases hb : firstBraceMatch t with
  | none => simp [parse_error_obj]
  | some sub =>
    cases hj : json_loads sub with
    | none =>
      simp only []
      rw [hj]
      simp [parse_error_obj]
    | some v =>
      obtain ⟨tl, htl⟩ := firstBraceMatch_head t sub hb
      obtain ⟨fs, hfs⟩ := json_loads_lbrace sub tl htl v hj
      simp only []
      rw [hj]
      simp [hfs]

/-- When the direct parse of the secondary reply fails, the next-actions
helper falls back to its fixed defaults. -/
theorem next_actions_default_of_parse_failed (t : String) (h : json_loads t = none) :
    generate_next_actions (generate_json_response_pure t) = default_next_actions := by
  cases hg : generate_json_response_pure t with
  | arr l => exact absurd hg (jrp_not_arr t h l)
  | null => rfl
  | bool b => rfl
  | num q => rfl
  | str s => rfl
  | obj fs => rfl

/-- A gateway sentinel string never parses as JSON. -/
theorem json_loads_error_prefix (msg : String) : json_loads ("Error: " ++ msg) = none := by
  unfold json_loads
  have hdata : ("Error: " ++ msg).toList
      = 'E' :: 'r' :: 'r' :: 'o' :: 'r' :: ':' :: ' ' :: msg.toList := by
    cases msg with
    | mk data => rfl
  rw [hdata]
  rw [show skipWs ('E' :: 'r' :: 'r' :: 'o' :: 'r' :: ':' :: ' ' :: msg.toList)
      = 'E' :: 'r' :: 'r' :: 'o' :: 'r' :: ':' :: ' ' :: msg.toList from rfl]
  rw [parseValue_E]

/-- Claim C5: the JSON extraction applied to prose-wrapped JSON recovers the
embedded object via the greedy brace-delimited substring (direct parse
fails on the trailing prose), and applied to non-JSON text with no braces
it returns the structured parse-failure value carrying the raw text. -/
theorem c5_json_extraction_roundtrip :
    json_loads "Here you go: \x7b\"a\":1\x7d thanks" = none ∧
    firstBraceMatch "Here you go: \x7b\"a\":1\x7d thanks" = some "\x7b\"a\":1\x7d" ∧
    generate_json_response_pure "Here you go: \x7b\"a\":1\x7d thanks"
      = Json.obj [("a", Json.num 1)] ∧
    generate_json_response_pure "not json at all" = parse_error_obj "not json at all" :=
  ⟨rfl, rfl, rfl, rfl⟩

/-- Claim C9: a JSON array wrapped in prose is not recovered — the extraction
returns the parse-failure value on it — and in general, whenever the
direct parse fails, the second tier can never produce a bare array (the
brace-delimited substring, if it parses, is an object; otherwise the error
value, also an object, is returned). -/
theorem c9_array_never_recovered :
    generate_json_response_pure "Here is the menu: [1, 2]"
      = parse_error_obj "Here is the menu: [1, 2]" ∧
    ∀ t, json_loads t = none → ∀ l, generate_json_response_pure t ≠ Json.arr l :=
  ⟨rfl, fun t h l => jrp_not_arr t h l⟩

/-- Claim C9 witness: the universal part applied to a concrete non-JSON
text. -/
theorem c9_array_never_recovered_witness :
    json_loads "menu follows" = none ∧
    generate_json_response_pure "menu follows" ≠ Json.arr [] :=
  ⟨rfl, c9_array_never_recovered.2 "menu follows" rfl []⟩

/-- Claim C2 (amended): when the primary generation fails, `generate_response`
returns a sentinel string instead of raising, so `execute_action` takes its
normal path and still returns a well-formed result: the content carries the
primary sentinel, the model identifier is the configured model (not the
`"error"` sentinel), and — the secondary call failing the same way — the
next-actions are the fixed three defaults (not empty).  The error-flagged
branch described by the claim corresponds to an exception from
`generate_response`, which never raises. -/
theorem c2_execute_failure (p s : GatewayOutcome)
    (hp : p.isFailure = true) (hs : s.isFailure = true) :
    (execute_action p s).content = generate_response_text p ∧
    (execute_action p s).model_used = current_model ∧
    (execute_action p s).next_actions = default_next_actions := by
  refine ⟨rfl, rfl, ?_⟩
  show generate_next_actions (generate_json_response_pure (generate_response_text s))
      = default_next_actions
  apply next_actions_default_of_parse_failed
  cases s with
  | success raw => simp [GatewayOutcome.isFailure] at hs
  | timeout => rfl
  | connError => rfl
  | otherExc msg => exact json_loads_error_prefix msg

/-- Claim C2 witness: both calls timing out. -/
theorem c2_execute_failure_witness :
    (execute_action .timeout .timeout).content = generate_response_text .timeout ∧
    (execute_action .timeout .timeout).model_used = current_model ∧
    (execute_action .timeout .timeout).next_actions = default_next_actions :=
  c2_execute_failure .timeout .timeout rfl rfl

/-- Claim C2 counterexample: on a primary transport failure the result is not
error-flagged as claimed — the next-actions list is the non-empty default
list and the model identifier is the configured model, not the `"error"`
sentinel. -/
theorem c2_counterexample :
    (execute_action .connError .connError).next_actions ≠ [] ∧
    (execute_action .connError .connError).model_used ≠ "error" ∧
    (execute_action .connError .connError).content = generate_response_text .connError := by
  refine ⟨?_, ?_, rfl⟩
  · show default_next_actions ≠ []
    simp [default_next_actions]
  · show current_model ≠ "error"
    decide

/-- Claim C10: when the primary generation succeeds, the next-actions list
has at most 3 elements: a list response is truncated to its first 3
elements (not padded), and any non-list response yields exactly the fixed
three defaults. -/
theorem c10_next_actions_cap (t : String) (s : GatewayOutcome) :
    (execute_action (.success t) s).next_actions.length ≤ 3 ∧
    (∀ l, generate_json_response_pure (generate_response_text s) = Json.arr l →
      (execute_action (.success t) s).next_actions = l.take 3) ∧
    ((generate_json_response_pure (generate_response_text s)).isArr = false →
      (execute_action (.success t) s).next_actions = default_next_actions) := by
  refine ⟨?_, ?_, ?_⟩
  · show (generate_next_actions (generate_json_response_pure (generate_response_text s))).length ≤ 3
    cases hg : generate_json_response_pure (generate_response_text s) with
    | arr l => simpa [generate_next_actions] using List.length_take_le 3 l
    | null => exact le_refl 3
    | bool b => exact le_refl 3
    | num q => exact le_refl 3
    | str x => exact le_refl 3
    | obj fs => exact le_refl 3
  · intro l hl
    show generate_next_actions (generate_json_response_pure (generate_response_text s))
        = l.take 3
    rw [hl]
    rfl
  · intro hna
    show generate_next_actions (generate_json_response_pure (generate_response_text s))
        = default_next_actions
    cases hg : generate_json_response_pure (generate_response_text s) with
    | arr l => rw [hg] at hna; simp [Json.isArr] at hna
    | null => rfl
    | bool b => rfl
    | num q => rfl
    | str x => rfl
    | obj fs => rfl

/-- Claim C10 witness: a successful primary call with an unavailable
secondary call yields the three default next actions. -/
theorem c10_next_actions_cap_witness :
    (execute_action (.success "done") .connError).next_actions.length ≤ 3 ∧
    (execute_action (.success "done") .connError).next_actions = default_next_actions :=
  ⟨(c10_next_actions_cap "done" .connError).1,
   (c10_next_actions_cap "done" .connError).2.2 rfl⟩

/-! ### Lemmas about the per-session conversation history -/

/-- History produced by one call: the (possibly system-extended) previous
history, the user message, and on success the assistant reply. -/
theorem step_history_eq (h : List Message) (c : GenCall) :
    (generate_response_step h c).1 = insertSystem h c.system_prompt ++
      ({ role := "user", content := c.prompt } ::
        (match c.outcome with
         | .success raw => [{ role := "assistant", content := raw.trim }]
         | _ => [])) := by
  obtain ⟨sp, pr, o⟩ := c
  cases o <;> simp [generate_response_step]

/-- On a failing call the step returns the sentinel string and mutates the
history to exactly the system-extended history plus the user message. -/
theorem step_fail_eq (h : List Message) (sp : Option String) (pr : String) (o : GatewayOutcome)
    (hf : o.isFailure = true) :
    generate_response_step h ⟨sp, pr, o⟩ =
      (insertSystem h sp ++ [{ role := "user", content := pr }],
       generate_response_text o) := by
  cases o with
  | success raw => simp [GatewayOutcome.isFailure] at hf
  | timeout => rfl
  | connError => rfl
  | otherExc m => rfl

/-- System insertion preserves "no system message after position 0". -/
theorem insertSystem_tail (h : List Message) (sp : Option String)
    (hh : ((h.drop 1).all fun m => m.role != "system") = true) :
    (((insertSystem h sp).drop 1).all fun m => m.role != "system") = true := by
  unfold insertSystem
  by_cases hg : (sysTruthy sp && needsSystemInsert h) = true
  · rw [if_pos hg]
    show (h.all fun m => m.role != "system") = true
    have hns : needsSystemInsert h = true := (Bool.and_eq_true _ _ ▸ hg).2
    cases h with
    | nil => rfl
    | cons m t =>
      have hm : (m.role != "system") = true := hns
      have ht : (t.all fun m => m.role != "system") = true := hh
      simp [List.all_cons, hm, ht]
  · rw [if_neg hg]
    exact hh

/-- Appending non-system messages preserves "no system message after
position 0". -/
theorem tail_no_system_append (h ms : List Message)
    (hh : ((h.drop 1).all fun m => m.role != "system") = true)
    (hm : (ms.all fun m => m.role != "system") = true) :
    (((h ++ ms).drop 1).all fun m => m.role != "system") = true := by
  cases h with
  | nil =>
    show ((ms.drop 1).all fun m => m.role != "system") = true
    rw [List.all_eq_true] at hm ⊢
    intro m hmem
    exact hm m (List.mem_of_mem_drop hmem)
  | cons x t =>
    show ((t ++ ms).all fun m => m.role != "system") = true
    rw [List.all_append]
    have ht : (t.all fun m => m.role != "system") = true := hh
    rw [ht, hm]
    rfl

/-- One `generate_response` call preserves the invariant that only the
head of the history can be a system message. -/
theorem step_tail_no_system (h : List Message) (c : GenCall)
    (hh : ((h.drop 1).all fun m => m.role != "system") = true) :
    (((generate_response_step h c).1.drop 1).all fun m => m.role != "system") = true := by
  rw [step_history_eq]
  apply tail_no_system_append _ _ (insertSystem_tail h c.system_prompt hh)
  cases c.outcome <;> rfl

/-- Any run of `generate_response` calls on a fresh session leaves no
system message after position 0. -/
theorem run_calls_tail_no_system (calls : List GenCall) :
    (((run_calls calls).drop 1).all fun m => m.role != "system") = true := by
  suffices hgen : ∀ h0 : List Message, ((h0.drop 1).all fun m => m.role != "system") = true →
      (((calls.foldl (fun h c => (generate_response_step h c).1) h0).drop 1).all
        fun m => m.role != "system") = true by
    exact hgen [] rfl
  induction calls with
  | nil => intro h0 hh; exact hh
  | cons c t ih =>
    intro h0 hh
    simp only [List.foldl_cons]
    exact ih _ (step_tail_no_system h0 c hh)

/-- A history in which only the head can be a system message contains at
most one system message. -/
theorem count_system_le_one (h : List Message)
    (hh : ((h.drop 1).all fun m => m.role != "system") = true) :
    (h.filter fun m => m.role == "system").length ≤ 1 := by
  cases h with
  | nil => simp
  | cons m t =>
    have ht : (t.filter fun m => m.role == "system") = [] := by
      rw [List.filter_eq_nil_iff]
      intro a ha
      have := List.all_eq_true.mp hh a ha
      simpa using this
    rw [List.filter_cons]
    by_cases hm : (m.role == "system") = true
    · simp [hm, ht]
    · simp [hm, ht]

/-- One call appends exactly the user message and (on success) the
assistant reply to the non-system part of the history, at the end. -/
theorem step_nonsystem_filter (h : List Message) (c : GenCall) :
    ((generate_response_step h c).1.filter fun m => m.role != "system") =
      (h.filter fun m => m.role != "system") ++
        ({ role := "user", content := c.prompt } ::
          (match c.outcome with
           | .success raw => [{ role := "assistant", content := raw.trim }]
           | _ => [])) := by
  rw [step_history_eq, List.filter_append]
  congr 1
  · unfold insertSystem
    by_cases hg : (sysTruthy c.system_prompt && needsSystemInsert h) = true
    · rw [if_pos hg, List.filter_cons]
      simp
    · rw [if_neg hg]
  · cases c.outcome <;> rfl

/-- Appending one call to a run takes one step from the run's history. -/
theorem run_calls_append_one (calls : List GenCall) (c : GenCall) :
    run_calls (calls ++ [c]) = (generate_response_step (run_calls calls) c).1 := by
  unfold run_calls
  rw [List.foldl_append]
  rfl

/-- Claim C7: over any sequence of text-generation calls on one session, the
history holds at most one system message, any system message sits at
position 0, and the non-system messages grow strictly chronologically:
each further call appends its user message (and, on success, the assistant
reply) at the end of the non-system part. -/
theorem c7_session_history_invariant (calls : List GenCall) :
    ((run_calls calls).filter fun m => m.role == "system").length ≤ 1 ∧
    (((run_calls calls).drop 1).all fun m => m.role != "system") = true ∧
    ∀ c, (run_calls (calls ++ [c])).filter (fun m => m.role != "system") =
      ((run_calls calls).filter fun m => m.role != "system") ++
        ({ role := "user", content := c.prompt } ::
          (match c.outcome with
           | .success raw => [{ role := "assistant", content := raw.trim }]
           | _ => [])) := by
  have htail := run_calls_tail_no_system calls
  refine ⟨count_system_le_one _ htail, htail, ?_⟩
  intro c
  rw [run_calls_append_one]
  exact step_nonsystem_filter _ c

/-- Claim C8: a failing call returns the sentinel without appending it as an
assistant message — the assistant messages of the history are unchanged —
yet the user message appended before the send is retained at the end, so
the history still grows (the mutation is not rolled back). -/
theorem c8_failed_call_mutation (h : List Message) (c : GenCall)
    (hf : c.outcome.isFailure = true) :
    (generate_response_step h c).1 = insertSystem h c.system_prompt ++
        [{ role := "user", content := c.prompt }] ∧
    ((generate_response_step h c).1.filter fun m => m.role == "assistant") =
      (h.filter fun m => m.role == "assistant") ∧
    h.length < (generate_response_step h c).1.length ∧
    (generate_response_step h c).1.getLast? = some { role := "user", content := c.prompt } ∧
    (generate_response_step h c).2 = generate_response_text c.outcome := by
  obtain ⟨sp, pr, o⟩ := c
  rw [step_fail_eq h sp pr o hf]
  refine ⟨rfl, ?_, ?_, ?_, rfl⟩
  · rw [List.filter_append]
    have h1 : ((insertSystem h sp).filter fun m => m.role == "assistant") =
        h.filter fun m => m.role == "assistant" := by
      unfold insertSystem
      by_cases hg : (sysTruthy sp && needsSystemInsert h) = true
      · rw [if_pos hg, List.filter_cons]
        simp
      · rw [if_neg hg]
    rw [h1]
    simp
  · have h2 : h.length ≤ (insertSystem h sp).length := by
      unfold insertSystem
      by_cases hg : (sysTruthy sp && needsSystemInsert h) = true
      · rw [if_pos hg]
        exact Nat.le_succ _
      · rw [if_neg hg]
    rw [List.length_append]
    simp only [List.length_cons, List.length_nil]
    omega
  · rw [List.getLast?_append]
    rfl

/-- Claim C8 witness: a timed-out call on a fresh session. -/
theorem c8_failed_call_mutation_witness :
    (generate_response_step [] ⟨none, "hello", .timeout⟩).1 =
        insertSystem [] none ++ [{ role := "user", content := "hello" }] ∧
    ((generate_response_step [] ⟨none, "hello", .timeout⟩).1.filter
        fun m => m.role == "assistant") =
      (([] : List Message).filter fun m => m.role == "assistant") ∧
    ([] : List Message).length < (generate_response_step [] ⟨none, "hello", .timeout⟩).1.length ∧
    (generate_response_step [] ⟨none, "hello", .timeout⟩).1.getLast?
      = some { role := "user", content := "hello" } ∧
    (generate_response_step [] ⟨none, "hello", .timeout⟩).2 = generate_response_text .timeout :=
  c8_failed_call_mutation [] ⟨none, "hello", .timeout⟩ rfl
